import Mathlib

/-!
Verification of the BusTub buffer pool core: a shallow embedding of
src/buffer/clock_replacer.cpp and src/buffer/buffer_pool_manager.cpp,
followed by theorems about the embedded operations.

Machine integers are modelled as Nat (sizes, frame ids, chances) and Int
(page ids, pin counts; pin_count_ is a C++ int and may go negative).
The unbounded while loop in ClockReplacer::Victim is modelled with an
explicit fuel parameter; the termination theorems below show that fuel
2 * num_pages suffices on every state the replacer can actually reach.
-/

/-! ## Clock replacer (clock_replacer.cpp) -/

/-- Modelled from the spec: the per-slot record of the clock ring
(clock_replacer.h is not under src). Section 3 of the spec: each slot
carries an in-replacer boolean and a small non-negative chance counter. -/
structure FrameStat where
  is_in : Bool
  chances : Nat
deriving Repr, DecidableEq

/-- Modelled from the spec: a default-constructed FrameStat, as produced by
the ClockReplacer constructor for every slot; a fresh slot is not in the
replacer and has chance 0. -/
def defaultStat : FrameStat := ⟨false, 0⟩

/-- The ClockReplacer state: ring of slots, clock hand, cached size
(fields num_pages_, clock_hand_, rb_, real_size_ of clock_replacer.cpp). -/
structure ClockReplacer where
  num_pages : Nat
  clock_hand : Nat
  rb : List FrameStat
  real_size : Nat
deriving Repr, DecidableEq

/-- Reading a ring slot; indexes rb_ as the C++ vector does. -/
def ClockReplacer.rbGet (s : ClockReplacer) (i : Nat) : FrameStat :=
  s.rb.getD i defaultStat

/-- The ClockReplacer constructor: clock hand 0, all slots default, size 0. -/
def mkClockReplacer (num_pages : Nat) : ClockReplacer :=
  ⟨num_pages, 0, List.replicate num_pages defaultStat, 0⟩

/-- One hand advance: clock_hand_ = (clock_hand_ + 1) % num_pages_
(line 40 of clock_replacer.cpp). -/
def stepAdvance (s : ClockReplacer) : ClockReplacer :=
  { s with clock_hand := (s.clock_hand + 1) % s.num_pages }

/-- The second-chance branch of the Victim loop: decrement the chance of the
slot under the hand and advance (lines 31-32 and 40 of clock_replacer.cpp). -/
def decStep (s : ClockReplacer) : ClockReplacer :=
  stepAdvance
    { s with rb := s.rb.set s.clock_hand ⟨true, (s.rbGet s.clock_hand).chances - 1⟩ }

/-- The selection branch of the Victim loop: clear the in-replacer flag of the
slot under the hand and decrement the size; the hand does not move
(lines 33-37 of clock_replacer.cpp). -/
def clearStep (s : ClockReplacer) : ClockReplacer :=
  { s with rb := s.rb.set s.clock_hand ⟨false, (s.rbGet s.clock_hand).chances⟩,
           real_size := s.real_size - 1 }

/-- The while(true) loop of ClockReplacer::Victim (lines 28-41 of
clock_replacer.cpp), with explicit fuel standing for the iteration count. -/
def victimLoop : Nat → ClockReplacer → Option (Nat × ClockReplacer)
  | 0, _ => none
  | fuel + 1, s =>
    if (s.rbGet s.clock_hand).is_in then
      if 0 < (s.rbGet s.clock_hand).chances then victimLoop fuel (decStep s)
      else some (s.clock_hand, clearStep s)
    else victimLoop fuel (stepAdvance s)

/-- ClockReplacer::Victim (lines 23-42 of clock_replacer.cpp): the early
return when Size() is 0, then the scan loop. -/
def ClockReplacer.Victim (fuel : Nat) (s : ClockReplacer) :
    Option (Nat × ClockReplacer) :=
  if s.real_size = 0 then none else victimLoop fuel s

/-- ClockReplacer::Pin (lines 44-50 of clock_replacer.cpp). -/
def ClockReplacer.Pin (s : ClockReplacer) (frame_id : Nat) : ClockReplacer :=
  if (s.rbGet frame_id).is_in then
    { s with rb := s.rb.set frame_id ⟨false, (s.rbGet frame_id).chances⟩,
             real_size := s.real_size - 1 }
  else s

/-- ClockReplacer::Unpin (lines 52-59 of clock_replacer.cpp). -/
def ClockReplacer.Unpin (s : ClockReplacer) (frame_id : Nat) : ClockReplacer :=
  if (s.rbGet frame_id).is_in then s
  else
    { s with rb := s.rb.set frame_id ⟨true, 1⟩,
             real_size := s.real_size + 1 }

/-- Number of slots whose in-replacer flag is set; the quantity that
real_size_ caches. -/
def countIn (l : List FrameStat) : Nat :=
  (l.filter (fun fs => fs.is_in)).length

/-! ## Buffer pool manager (buffer_pool_manager.cpp) -/

def INVALID_PAGE_ID : Int := -1

/-- Modelled from the spec: the external Disk Manager interface of spec
section 6 (the DiskManager class is not under src). Page payloads are
abstracted to a Nat blob (0 = zeroed buffer), the on-disk store is an
association list from page id to payload, AllocatePage hands out ids from a
monotone counter, and DeallocatePage only records the call, which is all
the buffer pool core can observe of it. -/
structure DiskManager where
  next_page_id : Int
  pages : List (Int × Nat)
  deallocLog : List Int
deriving Repr, DecidableEq

/-- Modelled from the spec: AllocatePage returns a fresh page id, extending
the store if needed (spec section 6). -/
def DiskManager.AllocatePage (d : DiskManager) : Int × DiskManager :=
  (d.next_page_id, { d with next_page_id := d.next_page_id + 1 })

/-- Modelled from the spec: WritePage writes a page-sized block (section 6). -/
def DiskManager.WritePage (d : DiskManager) (page_id : Int) (data : Nat) :
    DiskManager :=
  { d with pages := (page_id, data) :: d.pages.filter (fun e => !(e.1 == page_id)) }

/-- Modelled from the spec: ReadPage reads a page-sized block (section 6);
a page never written reads back as zeroes. -/
def DiskManager.ReadPage (d : DiskManager) (page_id : Int) : Nat :=
  ((d.pages.find? (fun e => e.1 == page_id)).map (fun e => e.2)).getD 0

/-- Modelled from the spec: DeallocatePage marks a page id reusable
(section 6); the model records the call. -/
def DiskManager.DeallocatePage (d : DiskManager) (page_id : Int) : DiskManager :=
  { d with deallocLog := page_id :: d.deallocLog }

/-- Modelled from the spec: the Page frame object (page.h is not under src).
Spec section 3: a frame owns a byte buffer (abstracted to a Nat blob), the
resident page id, a pin count (a C++ int, hence Int here), and a dirty flag. -/
structure Page where
  page_id : Int
  pin_count : Int
  is_dirty : Bool
  data : Nat
deriving Repr, DecidableEq

/-- Modelled from the spec: a default-constructed frame as produced by the
pool constructor; section 3 lifecycle: born with pin count 0, not dirty,
resident id INVALID_PAGE_ID, zeroed buffer. -/
def defaultPage : Page := ⟨INVALID_PAGE_ID, 0, false, 0⟩

/-- Modelled from the spec: Page::ResetAll as used by the manager; spec
section 4.2: overwrite the resident page id, zero the buffer, set the pin
count to 0 and clear the dirty flag. -/
def Page.ResetAll (page_id : Int) : Page := ⟨page_id, 0, false, 0⟩

/-- Lookup in the page table (std::unordered_map::find composed with the
iterator dereference). -/
def alookup (m : List (Int × Nat)) (k : Int) : Option Nat :=
  (m.find? (fun e => e.1 == k)).map (fun e => e.2)

/-- std::unordered_map::erase by key. -/
def aerase (m : List (Int × Nat)) (k : Int) : List (Int × Nat) :=
  m.filter (fun e => !(e.1 == k))

/-- std::unordered_map::emplace: inserts only when the key is absent. -/
def ainsert (m : List (Int × Nat)) (k : Int) (v : Nat) : List (Int × Nat) :=
  match m.find? (fun e => e.1 == k) with
  | some _ => m
  | none => (k, v) :: m

/-- The BufferPoolManager state: the frame array pages_, the page table,
the free list, the replacer and the disk manager it owns a handle to
(buffer_pool_manager.cpp lines 20-30; the log manager is never used by the
core and is omitted). -/
structure BufferPoolManager where
  pool_size : Nat
  pages_ : List Page
  page_table_ : List (Int × Nat)
  free_list_ : List Nat
  replacer_ : ClockReplacer
  disk : DiskManager
deriving Repr, DecidableEq

/-- The BufferPoolManager constructor (lines 20-30): fresh frames, fresh
replacer, free list [0, 1, ..., pool_size - 1]. -/
def newBufferPoolManager (pool_size : Nat) (disk : DiskManager) :
    BufferPoolManager :=
  { pool_size := pool_size,
    pages_ := List.replicate pool_size defaultPage,
    page_table_ := [],
    free_list_ := List.range pool_size,
    replacer_ := mkClockReplacer pool_size,
    disk := disk }

/-- The shared tail of FetchPageImpl (lines 75-77): increment the pin count
of the target frame, call Replacer::Pin on it, return the handle (the frame
id standing for the Page pointer). -/
def pinFrame (s : BufferPoolManager) (frame_id : Nat) :
    Option Nat × BufferPoolManager :=
  (some frame_id,
    { s with
      pages_ := s.pages_.set frame_id
        { s.pages_.getD frame_id defaultPage with
          pin_count := (s.pages_.getD frame_id defaultPage).pin_count + 1 },
      replacer_ := ClockReplacer.Pin s.replacer_ frame_id })

/-- The victim write-back of FetchPageImpl lines 62-67 and NewPageImpl lines
130-135: flush the victim frame if dirty, then erase its page id from the
page table. -/
def evictFrame (s : BufferPoolManager) (frame_id : Nat) : BufferPoolManager :=
  let victim := s.pages_.getD frame_id defaultPage
  let s1 :=
    if victim.is_dirty then
      { s with disk := s.disk.WritePage victim.page_id victim.data }
    else s
  { s1 with page_table_ := aerase s1.page_table_ victim.page_id }

/-- FetchPageImpl lines 70-72: ResetAll the target frame to the requested
page id, emplace the mapping, read the page bytes from disk into the frame. -/
def loadFrame (s : BufferPoolManager) (frame_id : Nat) (page_id : Int) :
    BufferPoolManager :=
  let s1 := { s with pages_ := s.pages_.set frame_id (Page.ResetAll page_id) }
  let s2 := { s1 with page_table_ := ainsert s1.page_table_ page_id frame_id }
  { s2 with
    pages_ := s2.pages_.set frame_id
      { s2.pages_.getD frame_id defaultPage with
        data := s2.disk.ReadPage page_id } }

/-- BufferPoolManager::FetchPageImpl (lines 37-78). The fuel is threaded to
the Victim loop. The outer Option records whether the execution is defined:
target_page starts as nullptr (line 46) and is assigned only on a page-table
hit (line 50) or after a replacer victim is found (line 60); on a miss served
from the free list (lines 52-54) it is still nullptr when line 70
dereferences it, so that path is undefined behavior, modelled as the outer
none. A defined execution returns some (handle, state), where the handle is
none for the nullptr failure return of line 58. -/
def BufferPoolManager.FetchPageImpl (fuel : Nat) (s : BufferPoolManager)
    (page_id : Int) : Option (Option Nat × BufferPoolManager) :=
  match alookup s.page_table_ page_id with
  | some frame_id => some (pinFrame s frame_id)
  | none =>
    if s.free_list_.length ≠ 0 then
      none
    else
      match ClockReplacer.Victim fuel s.replacer_ with
      | none => some (none, s)
      | some (frame_id, rep) =>
        some (pinFrame (loadFrame (evictFrame { s with replacer_ := rep }
          frame_id) frame_id page_id) frame_id)

/-- BufferPoolManager::UnpinPageImpl (lines 80-90). The is_dirty argument is
accepted and ignored, exactly as in the source. -/
def BufferPoolManager.UnpinPageImpl (s : BufferPoolManager) (page_id : Int)
    (is_dirty : Bool) : Bool × BufferPoolManager :=
  match alookup s.page_table_ page_id with
  | none => (false, s)
  | some frame_id =>
    let s1 := { s with replacer_ := ClockReplacer.Unpin s.replacer_ frame_id }
    (true,
      { s1 with
        pages_ := s1.pages_.set frame_id
          { s1.pages_.getD frame_id defaultPage with
            pin_count := (s1.pages_.getD frame_id defaultPage).pin_count - 1 } })

/-- BufferPoolManager::FlushPageImpl (lines 92-102). -/
def BufferPoolManager.FlushPageImpl (s : BufferPoolManager) (page_id : Int) :
    Bool × BufferPoolManager :=
  match alookup s.page_table_ page_id with
  | none => (false, s)
  | some frame_id =>
    let pg := s.pages_.getD frame_id defaultPage
    (true,
      { s with disk := s.disk.WritePage page_id pg.data,
               pages_ := s.pages_.set frame_id { pg with is_dirty := false } })

/-- BufferPoolManager::NewPageImpl (lines 104-142). Note that, as in the
source, the returned frame is neither pinned nor removed from the replacer. -/
def BufferPoolManager.NewPageImpl (fuel : Nat) (s : BufferPoolManager) :
    Option (Int × Nat) × BufferPoolManager :=
  if s.free_list_.length = 0 ∧ s.replacer_.real_size = 0 then (none, s)
  else
    let alloc := s.disk.AllocatePage
    let s0 := { s with disk := alloc.2 }
    if s0.free_list_.length ≠ 0 then
      let new_frame_id := s0.free_list_.getLastD 0
      let s1 := { s0 with free_list_ := s0.free_list_.dropLast }
      (some (alloc.1, new_frame_id),
        { s1 with
          pages_ := s1.pages_.set new_frame_id (Page.ResetAll alloc.1),
          page_table_ := ainsert s1.page_table_ alloc.1 new_frame_id })
    else
      match ClockReplacer.Victim fuel s0.replacer_ with
      | none => (none, s0)
      | some (new_frame_id, rep) =>
        let s1 := evictFrame { s0 with replacer_ := rep } new_frame_id
        (some (alloc.1, new_frame_id),
          { s1 with
            pages_ := s1.pages_.set new_frame_id (Page.ResetAll alloc.1),
            page_table_ := ainsert s1.page_table_ alloc.1 new_frame_id })

/-- BufferPoolManager::DeletePageImpl (lines 144-165). Note that, as in the
source, DiskManager::DeallocatePage is never called and the replacer is not
told about the freed frame. -/
def BufferPoolManager.DeletePageImpl (s : BufferPoolManager) (page_id : Int) :
    Bool × BufferPoolManager :=
  match alookup s.page_table_ page_id with
  | none => (true, s)
  | some frame_id =>
    let current_page := s.pages_.getD frame_id defaultPage
    if current_page.pin_count ≠ 0 then (false, s)
    else
      (true,
        { s with pages_ := s.pages_.set frame_id (Page.ResetAll INVALID_PAGE_ID),
                 page_table_ := aerase s.page_table_ page_id,
                 free_list_ := s.free_list_ ++ [frame_id] })

/-- An empty disk: no pages written yet, allocation starts at id 0. -/
def emptyDisk : DiskManager := ⟨0, [], []⟩

/-! ## List indexing helpers -/

theorem lgetD_set_self {α : Type} :
    ∀ (l : List α) (i : Nat) (a d : α), i < l.length →
      (l.set i a).getD i d = a := by
  intro l
  induction l with
  | nil => intro i a d h; simp at h
  | cons x xs ih =>
    intro i a d h
    cases i with
    | zero => rfl
    | succ n =>
      simp only [List.set_cons_succ, List.getD_cons_succ]
      exact ih n a d (by simpa using h)

theorem lgetD_set_ne {α : Type} :
    ∀ (l : List α) (i j : Nat) (a d : α), i ≠ j →
      (l.set i a).getD j d = l.getD j d := by
  intro l
  induction l with
  | nil => intro i j a d _; rfl
  | cons x xs ih =>
    intro i j a d hne
    cases i with
    | zero =>
      cases j with
      | zero => exact absurd rfl hne
      | succ m => rfl
    | succ n =>
      cases j with
      | zero => rfl
      | succ m =>
        simp only [List.set_cons_succ, List.getD_cons_succ]
        exact ih n m a d (fun h => hne (by rw [h]))

theorem countIn_pos_exists :
    ∀ l : List FrameStat, 0 < countIn l →
      ∃ m, m < l.length ∧ (l.getD m defaultStat).is_in = true := by
  intro l
  induction l with
  | nil => intro h; simp [countIn] at h
  | cons x xs ih =>
    intro h
    by_cases hx : x.is_in = true
    · exact ⟨0, by simp, hx⟩
    · have hx' : x.is_in = false := by
        cases hb : x.is_in
        · rfl
        · exact absurd hb hx
      have : 0 < countIn xs := by
        simpa [countIn, List.filter, hx'] using h
      obtain ⟨m, hm, hmin⟩ := ih this
      exact ⟨m + 1, by simpa using hm, by simpa using hmin⟩

theorem countIn_set :
    ∀ (l : List FrameStat) (i : Nat) (a : FrameStat),
      a.is_in = (l.getD i defaultStat).is_in →
      countIn (l.set i a) = countIn l := by
  intro l
  induction l with
  | nil => intro i a _; rfl
  | cons x xs ih =>
    intro i a hin
    cases i with
    | zero =>
      simp only [List.getD_cons_zero] at hin
      cases hx : x.is_in with
      | true => simp [countIn, List.filter, hin, hx]
      | false => simp [countIn, List.filter, hin, hx]
    | succ n =>
      simp only [List.getD_cons_succ] at hin
      simp only [List.set_cons_succ]
      cases hx : x.is_in <;>
        simpa [countIn, List.filter, hx] using ih n a hin

theorem countIn_pos_length (l : List FrameStat) (h : 0 < countIn l) :
    0 < l.length := by
  obtain ⟨m, hm, _⟩ := countIn_pos_exists l h
  omega

/-! ## First satisfying index below a bound -/

/-- The least index below the bound at which the predicate holds. -/
def firstSat (p : Nat → Bool) : Nat → Option Nat
  | 0 => none
  | n + 1 =>
    match firstSat p n with
    | some j => some j
    | none => if p n then some n else none

theorem firstSat_none_forward (p : Nat → Bool) :
    ∀ n, firstSat p n = none → ∀ i, i < n → p i = false := by
  intro n
  induction n with
  | zero => intro _ i hi; omega
  | succ n ih =>
    intro h i hi
    rw [firstSat] at h
    cases hfs : firstSat p n with
    | some j => rw [hfs] at h; exact absurd h (by simp)
    | none =>
      rw [hfs] at h
      by_cases hp : p n = true
      · rw [if_pos hp] at h; exact absurd h (by simp)
      · rcases Nat.lt_or_ge i n with hlt | hge
        · exact ih hfs i hlt
        · have : i = n := by omega
          subst this
          cases hb : p i
          · rfl
          · exact absurd hb hp

theorem firstSat_none_of (p : Nat → Bool) :
    ∀ n, (∀ i, i < n → p i = false) → firstSat p n = none := by
  intro n
  induction n with
  | zero => intro _; rfl
  | succ n ih =>
    intro h
    rw [firstSat, ih (fun i hi => h i (by omega)), h n (by omega)]
    simp

theorem firstSat_some (p : Nat → Bool) :
    ∀ n j, firstSat p n = some j →
      j < n ∧ p j = true ∧ ∀ i, i < j → p i = false := by
  intro n
  induction n with
  | zero => intro j h; exact absurd h (by simp [firstSat])
  | succ n ih =>
    intro j h
    rw [firstSat] at h
    cases hfs : firstSat p n with
    | some j0 =>
      rw [hfs] at h
      have hj0 : j0 = j := by simpa using h
      obtain ⟨h1, h2, h3⟩ := ih j0 hfs
      exact ⟨by omega, hj0 ▸ h2, fun i hi => h3 i (by omega)⟩
    | none =>
      rw [hfs] at h
      by_cases hp : p n = true
      · rw [if_pos hp] at h
        have hnj : n = j := by simpa using h
        exact ⟨by omega, hnj ▸ hp,
          fun i hi => firstSat_none_forward p n hfs i (by omega)⟩
      · rw [if_neg hp] at h
        exact absurd h (by simp)

theorem firstSat_some_of (p : Nat → Bool) :
    ∀ n j, j < n → p j = true → (∀ i, i < j → p i = false) →
      firstSat p n = some j := by
  intro n
  induction n with
  | zero => intro j hj; omega
  | succ n ih =>
    intro j hj hp hmin
    rcases Nat.lt_or_ge j n with hlt | hge
    · rw [firstSat, ih j hlt hp hmin]
    · have hjn : j = n := by omega
      subst hjn
      rw [firstSat, firstSat_none_of p j hmin, hp]
      simp

/-! ## Modular index arithmetic -/

theorem hand_shift (h k n : Nat) :
    ((h + 1) % n + k) % n = (h + (k + 1)) % n := by
  rw [Nat.mod_add_mod]
  congr 1
  omega

theorem mod_add_self_lt (h n : Nat) (hh : h < n) : (h + n) % n = h := by
  rw [Nat.add_mod_right]
  exact Nat.mod_eq_of_lt hh

theorem mod_ne_of_between (h m n : Nat) (hh : h < n) (hm1 : 1 ≤ m)
    (hm2 : m < n) : (h + m) % n ≠ h := by
  rcases Nat.lt_or_ge (h + m) n with hlt | hge
  · rw [Nat.mod_eq_of_lt hlt]; omega
  · have h2 : h + m - n < n := by omega
    rw [Nat.mod_eq_sub_mod hge, Nat.mod_eq_of_lt h2]
    omega

theorem exists_dist (h m n : Nat) (hh : h < n) (hm : m < n) :
    ∃ k, k < n ∧ (h + k) % n = m := by
  refine ⟨(m + n - h) % n, Nat.mod_lt _ (by omega), ?_⟩
  rw [Nat.add_mod_mod]
  have he : h + (m + n - h) = m + n := by omega
  rw [he, Nat.add_mod_right]
  exact Nat.mod_eq_of_lt hm

/-! ## Characterizing the Victim scan -/

/-- The slot at clockwise distance k from the hand is in the replacer and
has chance 0 (an immediately selectable victim). -/
def ClockReplacer.pVic (s : ClockReplacer) (k : Nat) : Bool :=
  (s.rbGet ((s.clock_hand + k) % s.num_pages)).is_in &&
    ((s.rbGet ((s.clock_hand + k) % s.num_pages)).chances == 0)

/-- The slot at clockwise distance k from the hand is in the replacer. -/
def ClockReplacer.pIn (s : ClockReplacer) (k : Nat) : Bool :=
  (s.rbGet ((s.clock_hand + k) % s.num_pages)).is_in

/-- The victim the spec describes, under the reachable-state invariant that
every chance is at most 1: the first slot reached clockwise from the hand
that is in the replacer and has chance 0 once the in-replacer slots passed
on the way have used up their second chance; when no in-replacer slot has
chance 0 within one sweep, the sweep itself zeroes every chance, so the
victim is the first in-replacer slot clockwise from the hand. -/
def ClockReplacer.seekVictim (s : ClockReplacer) : Option Nat :=
  match firstSat s.pVic s.num_pages with
  | some k => some ((s.clock_hand + k) % s.num_pages)
  | none =>
    (firstSat s.pIn s.num_pages).map (fun k => (s.clock_hand + k) % s.num_pages)

/-- Loop measure: distance to the first selectable victim, or one full sweep
plus the distance to the first in-replacer slot. -/
def ClockReplacer.mu (s : ClockReplacer) : Nat :=
  match firstSat s.pVic s.num_pages with
  | some k => k
  | none => s.num_pages + (firstSat s.pIn s.num_pages).getD 0

theorem stepAdvance_num_pages (s : ClockReplacer) :
    (stepAdvance s).num_pages = s.num_pages := rfl

theorem stepAdvance_rb (s : ClockReplacer) : (stepAdvance s).rb = s.rb := rfl

theorem stepAdvance_real_size (s : ClockReplacer) :
    (stepAdvance s).real_size = s.real_size := rfl

theorem stepAdvance_clock_hand (s : ClockReplacer) :
    (stepAdvance s).clock_hand = (s.clock_hand + 1) % s.num_pages := rfl

theorem decStep_num_pages (s : ClockReplacer) :
    (decStep s).num_pages = s.num_pages := rfl

theorem decStep_rb (s : ClockReplacer) :
    (decStep s).rb =
      s.rb.set s.clock_hand ⟨true, (s.rbGet s.clock_hand).chances - 1⟩ := rfl

theorem decStep_real_size (s : ClockReplacer) :
    (decStep s).real_size = s.real_size := rfl

theorem decStep_clock_hand (s : ClockReplacer) :
    (decStep s).clock_hand = (s.clock_hand + 1) % s.num_pages := rfl

theorem pVic_stepAdvance (s : ClockReplacer) (k : Nat) :
    (stepAdvance s).pVic k = s.pVic (k + 1) := by
  simp only [ClockReplacer.pVic, ClockReplacer.rbGet, stepAdvance]
  rw [hand_shift]

theorem pIn_stepAdvance (s : ClockReplacer) (k : Nat) :
    (stepAdvance s).pIn k = s.pIn (k + 1) := by
  simp only [ClockReplacer.pIn, ClockReplacer.rbGet, stepAdvance]
  rw [hand_shift]

theorem pVic_cycle (s : ClockReplacer) : s.pVic s.num_pages = s.pVic 0 := by
  simp only [ClockReplacer.pVic, Nat.add_mod_right, Nat.add_zero]

theorem pVic_decStep_lt (s : ClockReplacer) (k : Nat)
    (hh : s.clock_hand < s.num_pages) (hk : k + 1 < s.num_pages) :
    (decStep s).pVic k = s.pVic (k + 1) := by
  simp only [ClockReplacer.pVic, ClockReplacer.rbGet, decStep_clock_hand,
    decStep_num_pages, decStep_rb]
  rw [hand_shift, lgetD_set_ne]
  exact fun h =>
    mod_ne_of_between s.clock_hand (k + 1) s.num_pages hh (by omega) hk h.symm

theorem pVic_decStep_last (s : ClockReplacer)
    (hlen : s.rb.length = s.num_pages) (hh : s.clock_hand < s.num_pages)
    (hc : (s.rbGet s.clock_hand).chances = 1) :
    (decStep s).pVic (s.num_pages - 1) = true := by
  have hn : 0 < s.num_pages := by omega
  have hidx : ((s.clock_hand + 1) % s.num_pages + (s.num_pages - 1)) %
      s.num_pages = s.clock_hand := by
    rw [hand_shift]
    have he : s.num_pages - 1 + 1 = s.num_pages := by omega
    rw [he, mod_add_self_lt s.clock_hand s.num_pages hh]
  simp only [ClockReplacer.pVic, ClockReplacer.rbGet, decStep_clock_hand,
    decStep_num_pages, decStep_rb, hidx]
  rw [lgetD_set_self s.rb s.clock_hand _ defaultStat (by omega)]
  simp only [ClockReplacer.rbGet] at hc
  rw [hc]
  rfl

theorem pIn_first_exists (s : ClockReplacer) (hlen : s.rb.length = s.num_pages)
    (hh : s.clock_hand < s.num_pages) (hcnt : 0 < countIn s.rb) :
    ∃ j1, firstSat s.pIn s.num_pages = some j1 := by
  obtain ⟨m, hm, hmin⟩ := countIn_pos_exists s.rb hcnt
  obtain ⟨k, hk, hkm⟩ := exists_dist s.clock_hand m s.num_pages hh (by omega)
  cases hfs : firstSat s.pIn s.num_pages with
  | some j => exact ⟨j, rfl⟩
  | none =>
    exfalso
    have hfalse := firstSat_none_forward _ _ hfs k hk
    simp only [ClockReplacer.pIn, hkm, ClockReplacer.rbGet] at hfalse
    rw [hmin] at hfalse
    exact Bool.noConfusion hfalse

theorem skip_step (s : ClockReplacer)
    (hlen : s.rb.length = s.num_pages) (hh : s.clock_hand < s.num_pages)
    (hcnt : 0 < countIn s.rb)
    (hnot : (s.rbGet s.clock_hand).is_in = false) :
    (stepAdvance s).seekVictim = s.seekVictim ∧
      (stepAdvance s).mu < s.mu := by
  have hn : 0 < s.num_pages := by omega
  have hp0 : s.pVic 0 = false := by
    simp only [ClockReplacer.pVic, Nat.add_zero, Nat.mod_eq_of_lt hh, hnot]
    rfl
  have hq0 : s.pIn 0 = false := by
    simp only [ClockReplacer.pIn, Nat.add_zero, Nat.mod_eq_of_lt hh, hnot]
  obtain ⟨j1, hj1⟩ := pIn_first_exists s hlen hh hcnt
  obtain ⟨hj1n, hj1p, hj1min⟩ := firstSat_some _ _ _ hj1
  have hj1pos : 0 < j1 := by
    rcases Nat.eq_zero_or_pos j1 with h0 | hp
    · rw [h0, hq0] at hj1p; exact absurd hj1p (by simp)
    · exact hp
  have htin : firstSat (stepAdvance s).pIn s.num_pages =
      some (j1 - 1) := by
    apply firstSat_some_of
    · omega
    · rw [pIn_stepAdvance]
      have he : j1 - 1 + 1 = j1 := by omega
      rw [he]; exact hj1p
    · intro i hi
      rw [pIn_stepAdvance]
      exact hj1min (i + 1) (by omega)
  cases hv : firstSat s.pVic s.num_pages with
  | some j =>
    obtain ⟨hjn, hjp, hjmin⟩ := firstSat_some _ _ _ hv
    have hjpos : 0 < j := by
      rcases Nat.eq_zero_or_pos j with h0 | hp
      · rw [h0, hp0] at hjp; exact absurd hjp (by simp)
      · exact hp
    have htv : firstSat (stepAdvance s).pVic s.num_pages =
        some (j - 1) := by
      apply firstSat_some_of
      · omega
      · rw [pVic_stepAdvance]
        have he : j - 1 + 1 = j := by omega
        rw [he]; exact hjp
      · intro i hi
        rw [pVic_stepAdvance]
        exact hjmin (i + 1) (by omega)
    constructor
    · simp only [ClockReplacer.seekVictim, stepAdvance_num_pages,
        stepAdvance_clock_hand, htv, hv]
      rw [hand_shift]
      have he : j - 1 + 1 = j := by omega
      rw [he]
    · simp only [ClockReplacer.mu, stepAdvance_num_pages, htv, hv]
      omega
  | none =>
    have htvnone : firstSat (stepAdvance s).pVic s.num_pages =
        none := by
      apply firstSat_none_of
      intro i hi
      rw [pVic_stepAdvance]
      rcases Nat.lt_or_ge (i + 1) s.num_pages with hlt | hge
      · exact firstSat_none_forward _ _ hv (i + 1) hlt
      · have he : i + 1 = s.num_pages := by omega
        rw [he, pVic_cycle]
        exact hp0
    constructor
    · simp only [ClockReplacer.seekVictim, stepAdvance_num_pages,
        stepAdvance_clock_hand, htvnone, hv, htin, hj1, Option.map_some']
      rw [hand_shift]
      have he : j1 - 1 + 1 = j1 := by omega
      rw [he]
    · simp only [ClockReplacer.mu, stepAdvance_num_pages, htvnone, hv, htin,
        hj1, Option.getD_some]
      omega

theorem dec_step (s : ClockReplacer)
    (hlen : s.rb.length = s.num_pages) (hh : s.clock_hand < s.num_pages)
    (hin : (s.rbGet s.clock_hand).is_in = true)
    (hc : (s.rbGet s.clock_hand).chances = 1) :
    (decStep s).seekVictim = s.seekVictim ∧ (decStep s).mu < s.mu := by
  have hn : 0 < s.num_pages := by omega
  have hp0 : s.pVic 0 = false := by
    simp only [ClockReplacer.pVic, Nat.add_zero, Nat.mod_eq_of_lt hh, hin, hc]
    rfl
  have hq0 : s.pIn 0 = true := by
    simp only [ClockReplacer.pIn, Nat.add_zero, Nat.mod_eq_of_lt hh, hin]
  have hj1 : firstSat s.pIn s.num_pages = some 0 :=
    firstSat_some_of _ _ 0 hn hq0 (fun i hi => absurd hi (Nat.not_lt_zero i))
  cases hv : firstSat s.pVic s.num_pages with
  | some j =>
    obtain ⟨hjn, hjp, hjmin⟩ := firstSat_some _ _ _ hv
    have hjpos : 0 < j := by
      rcases Nat.eq_zero_or_pos j with h0 | hp
      · rw [h0, hp0] at hjp; exact absurd hjp (by simp)
      · exact hp
    have htv : firstSat (decStep s).pVic s.num_pages =
        some (j - 1) := by
      apply firstSat_some_of
      · omega
      · rw [pVic_decStep_lt s (j - 1) hh (by omega)]
        have he : j - 1 + 1 = j := by omega
        rw [he]; exact hjp
      · intro i hi
        rw [pVic_decStep_lt s i hh (by omega)]
        exact hjmin (i + 1) (by omega)
    constructor
    · simp only [ClockReplacer.seekVictim, decStep_num_pages,
        decStep_clock_hand, htv, hv]
      rw [hand_shift]
      have he : j - 1 + 1 = j := by omega
      rw [he]
    · simp only [ClockReplacer.mu, decStep_num_pages, htv, hv]
      omega
  | none =>
    have htv : firstSat (decStep s).pVic s.num_pages =
        some (s.num_pages - 1) := by
      apply firstSat_some_of
      · omega
      · exact pVic_decStep_last s hlen hh hc
      · intro i hi
        rw [pVic_decStep_lt s i hh (by omega)]
        exact firstSat_none_forward _ _ hv (i + 1) (by omega)
    constructor
    · simp only [ClockReplacer.seekVictim, decStep_num_pages,
        decStep_clock_hand, htv, hv, hj1, Option.map_some']
      rw [hand_shift]
      have he : s.num_pages - 1 + 1 = s.num_pages := by omega
      rw [he, mod_add_self_lt s.clock_hand s.num_pages hh]
      simp [Nat.mod_eq_of_lt hh]
    · simp only [ClockReplacer.mu, decStep_num_pages, htv, hv, hj1,
        Option.getD_some]
      omega

theorem victimLoop_succ_skip (fuel : Nat) (s : ClockReplacer)
    (h : (s.rbGet s.clock_hand).is_in = false) :
    victimLoop (fuel + 1) s = victimLoop fuel (stepAdvance s) := by
  simp [victimLoop, h]

theorem victimLoop_succ_dec (fuel : Nat) (s : ClockReplacer)
    (h1 : (s.rbGet s.clock_hand).is_in = true)
    (h2 : 0 < (s.rbGet s.clock_hand).chances) :
    victimLoop (fuel + 1) s = victimLoop fuel (decStep s) := by
  simp [victimLoop, h1, h2]

theorem victimLoop_succ_ret (fuel : Nat) (s : ClockReplacer)
    (h1 : (s.rbGet s.clock_hand).is_in = true)
    (h2 : ¬ 0 < (s.rbGet s.clock_hand).chances) :
    victimLoop (fuel + 1) s = some (s.clock_hand, clearStep s) := by
  simp [victimLoop, h1, h2]

theorem rbGet_decStep_self (s : ClockReplacer)
    (h : s.clock_hand < s.rb.length) :
    (decStep s).rbGet s.clock_hand =
      ⟨true, (s.rbGet s.clock_hand).chances - 1⟩ := by
  simp only [ClockReplacer.rbGet, decStep_rb]
  exact lgetD_set_self s.rb s.clock_hand _ defaultStat h

theorem rbGet_decStep_ne (s : ClockReplacer) (i : Nat)
    (h : i ≠ s.clock_hand) : (decStep s).rbGet i = s.rbGet i := by
  simp only [ClockReplacer.rbGet, decStep_rb]
  exact lgetD_set_ne s.rb s.clock_hand i _ defaultStat (fun he => h he.symm)

theorem rbGet_clearStep_self (s : ClockReplacer)
    (h : s.clock_hand < s.rb.length) :
    (clearStep s).rbGet s.clock_hand =
      ⟨false, (s.rbGet s.clock_hand).chances⟩ := by
  simp only [ClockReplacer.rbGet, clearStep]
  exact lgetD_set_self s.rb s.clock_hand _ defaultStat h

theorem victimLoop_spec : ∀ (fuel : Nat) (s : ClockReplacer),
    s.rb.length = s.num_pages → s.clock_hand < s.num_pages →
    (∀ i, i < s.num_pages → (s.rbGet i).chances ≤ 1) →
    0 < countIn s.rb → s.mu < fuel →
    ∃ v s2, victimLoop fuel s = some (v, s2) ∧ s.seekVictim = some v ∧
      (s.rbGet v).is_in = true ∧ s2.rbGet v = ⟨false, 0⟩ ∧
      s2.real_size = s.real_size - 1 ∧ s2.clock_hand = v ∧
      s2.num_pages = s.num_pages ∧ s2.rb.length = s.rb.length := by
  intro fuel
  induction fuel with
  | zero => intro s _ _ _ _ hmu; omega
  | succ fuel ih =>
    intro s hlen hh hch hcnt hmu
    by_cases hin : (s.rbGet s.clock_hand).is_in = true
    · by_cases hpos : 0 < (s.rbGet s.clock_hand).chances
      · -- second-chance branch: decrement and advance
        have hc1 : (s.rbGet s.clock_hand).chances = 1 := by
          have := hch s.clock_hand hh
          omega
        obtain ⟨hseek, hmu2⟩ := dec_step s hlen hh hin hc1
        have hlen2 : (decStep s).rb.length = (decStep s).num_pages := by
          rw [decStep_rb, decStep_num_pages, List.length_set]
          exact hlen
        have hh2 : (decStep s).clock_hand < (decStep s).num_pages := by
          rw [decStep_clock_hand, decStep_num_pages]
          exact Nat.mod_lt _ (by omega)
        have hch2 : ∀ i, i < (decStep s).num_pages →
            ((decStep s).rbGet i).chances ≤ 1 := by
          intro i hi
          rw [decStep_num_pages] at hi
          by_cases hieq : i = s.clock_hand
          · rw [hieq, rbGet_decStep_self s (by omega)]
            have := hch s.clock_hand hh
            show (s.rbGet s.clock_hand).chances - 1 ≤ 1
            omega
          · rw [rbGet_decStep_ne s i hieq]
            exact hch i hi
        have hcnt2 : 0 < countIn (decStep s).rb := by
          rw [decStep_rb]
          have hsame : (FrameStat.mk true ((s.rbGet s.clock_hand).chances - 1)).is_in
              = (s.rb.getD s.clock_hand defaultStat).is_in := by
            have hin2 : (s.rb.getD s.clock_hand defaultStat).is_in = true := hin
            rw [hin2]
          rw [countIn_set s.rb s.clock_hand _ hsame]
          exact hcnt
        obtain ⟨v, s2, heq, hsk, hvin, hrg, hrs, hclk, hnp, hlen3⟩ :=
          ih (decStep s) hlen2 hh2 hch2 hcnt2 (by omega)
        refine ⟨v, s2, ?_, ?_, ?_, hrg, ?_, hclk, ?_, ?_⟩
        · rw [victimLoop_succ_dec fuel s hin hpos]
          exact heq
        · rw [← hseek]
          exact hsk
        · by_cases hveq : v = s.clock_hand
          · rw [hveq]
            exact hin
          · rw [rbGet_decStep_ne s v hveq] at hvin
            exact hvin
        · rw [hrs, decStep_real_size]
        · rw [hnp, decStep_num_pages]
        · rw [hlen3, decStep_rb, List.length_set]
      · -- selection branch: the slot under the hand is the victim
        have hc0 : (s.rbGet s.clock_hand).chances = 0 := by omega
        have hn : 0 < s.num_pages := by omega
        refine ⟨s.clock_hand, clearStep s,
          victimLoop_succ_ret fuel s hin hpos, ?_, hin, ?_, rfl, rfl, rfl, ?_⟩
        · have hp0 : s.pVic 0 = true := by
            simp only [ClockReplacer.pVic, Nat.add_zero, Nat.mod_eq_of_lt hh,
              hin, hc0]
            rfl
          have hfs : firstSat s.pVic s.num_pages = some 0 :=
            firstSat_some_of _ _ 0 hn hp0
              (fun i hi => absurd hi (Nat.not_lt_zero i))
          simp only [ClockReplacer.seekVictim, hfs, Nat.add_zero,
            Nat.mod_eq_of_lt hh]
        · rw [rbGet_clearStep_self s (by omega), hc0]
        · simp [clearStep]
    · -- skip branch: the slot under the hand is not in the replacer
      have hnot : (s.rbGet s.clock_hand).is_in = false := by
        cases hb : (s.rbGet s.clock_hand).is_in
        · rfl
        · exact absurd hb hin
      obtain ⟨hseek, hmu2⟩ := skip_step s hlen hh hcnt hnot
      have hh2 : (stepAdvance s).clock_hand < (stepAdvance s).num_pages := by
        rw [stepAdvance_clock_hand, stepAdvance_num_pages]
        exact Nat.mod_lt _ (by omega)
      obtain ⟨v, s2, heq, hsk, hvin, hrg, hrs, hclk, hnp, hlen3⟩ :=
        ih (stepAdvance s) hlen hh2 hch hcnt (by omega)
      refine ⟨v, s2, ?_, ?_, hvin, hrg, hrs, hclk, hnp, hlen3⟩
      · rw [victimLoop_succ_skip fuel s hnot]
        exact heq
      · rw [← hseek]
        exact hsk

theorem mu_lt (s : ClockReplacer) (hlen : s.rb.length = s.num_pages)
    (hh : s.clock_hand < s.num_pages) (hcnt : 0 < countIn s.rb) :
    s.mu < 2 * s.num_pages := by
  have hn : 0 < s.num_pages := by omega
  cases hv : firstSat s.pVic s.num_pages with
  | some k =>
    have := (firstSat_some _ _ _ hv).1
    simp only [ClockReplacer.mu, hv]
    omega
  | none =>
    obtain ⟨j1, hj1⟩ := pIn_first_exists s hlen hh hcnt
    have := (firstSat_some _ _ _ hj1).1
    simp only [ClockReplacer.mu, hv, hj1, Option.getD_some]
    omega

/-! ## Claim theorems for the clock replacer -/

/-- Claim C7: ClockReplacer::Victim returns none if and only if the replacer
size is 0; otherwise it returns the first slot reached clockwise from the
current clock hand that is in the replacer and has chance 0 after in-replacer
slots with chance greater than 0 along the way have had their chance
decremented (the slot computed by seekVictim), it clears that slot in-replacer
flag and decrements the replacer size, and the clock hand is left pointing at
the chosen victim slot. The hypotheses are the representation invariants of
every reachable replacer state: the ring has num_pages slots, the hand is in
range, real_size counts the in-replacer slots, every chance is at most 1
(Unpin writes chance 1 and Victim only decrements), and the fuel covers the
two-sweep bound. -/
theorem C7_victim_correct (s : ClockReplacer) (fuel : Nat)
    (hlen : s.rb.length = s.num_pages) (hh : s.clock_hand < s.num_pages)
    (hch : ∀ i, i < s.num_pages → (s.rbGet i).chances ≤ 1)
    (hsz : s.real_size = countIn s.rb)
    (hfuel : 2 * s.num_pages ≤ fuel) :
    (ClockReplacer.Victim fuel s = none ↔ s.real_size = 0) ∧
    ∀ v s2, ClockReplacer.Victim fuel s = some (v, s2) →
      s.seekVictim = some v ∧ (s.rbGet v).is_in = true ∧
      s2.rbGet v = ⟨false, 0⟩ ∧ s2.real_size + 1 = s.real_size ∧
      s2.clock_hand = v := by
  by_cases hz : s.real_size = 0
  · constructor
    · constructor
      · intro _
        exact hz
      · intro _
        simp [ClockReplacer.Victim, hz]
    · intro v s2 habs
      rw [ClockReplacer.Victim, if_pos hz] at habs
      exact absurd habs (by simp)
  · have hcnt : 0 < countIn s.rb := by omega
    have hmu : s.mu < fuel := by
      have := mu_lt s hlen hh hcnt
      omega
    obtain ⟨v, s2, heq, hsk, hvin, hrg, hrs, hclk, _, _⟩ :=
      victimLoop_spec fuel s hlen hh hch hcnt hmu
    have hvic : ClockReplacer.Victim fuel s = some (v, s2) := by
      rw [ClockReplacer.Victim, if_neg hz]
      exact heq
    constructor
    · constructor
      · intro habs
        rw [hvic] at habs
        exact absurd habs (by simp)
      · intro habs
        exact absurd habs hz
    · intro v0 s0 hv0
      rw [hvic] at hv0
      have hv1 : v = v0 ∧ s2 = s0 := by
        constructor
        · exact congrArg (fun r => (r.getD (0, s)).1) hv0
        · exact congrArg (fun r => (r.getD (0, s)).2) hv0
      obtain ⟨hva, hvb⟩ := hv1
      rw [← hva, ← hvb]
      exact ⟨hsk, hvin, hrg, by omega, hclk⟩

/-- A concrete replacer used to witness C7: three slots, hand at 1, slots 1
and 2 in the replacer with one chance each. -/
def c7Rep : ClockReplacer := ⟨3, 1, [⟨false, 0⟩, ⟨true, 1⟩, ⟨true, 1⟩], 2⟩

theorem C7_victim_correct_witness :
    (c7Rep.rb.length = c7Rep.num_pages ∧ c7Rep.clock_hand < c7Rep.num_pages ∧
     (∀ i, i < c7Rep.num_pages → (c7Rep.rbGet i).chances ≤ 1) ∧
     c7Rep.real_size = countIn c7Rep.rb ∧ 2 * c7Rep.num_pages ≤ 6) ∧
    ((ClockReplacer.Victim 6 c7Rep = none ↔ c7Rep.real_size = 0) ∧
     ∀ v s2, ClockReplacer.Victim 6 c7Rep = some (v, s2) →
       c7Rep.seekVictim = some v ∧ (c7Rep.rbGet v).is_in = true ∧
       s2.rbGet v = ⟨false, 0⟩ ∧ s2.real_size + 1 = c7Rep.real_size ∧
       s2.clock_hand = v) :=
  ⟨⟨by decide, by decide, by decide, by decide, by decide⟩,
   C7_victim_correct c7Rep 6 (by decide) (by decide) (by decide) (by decide)
     (by decide)⟩

/-- Claim C8: on every replacer state with size greater than 0 whose
in-replacer slots all have chance at most 1, ClockReplacer::Victim
terminates, within at most 2 * pool_size loop iterations: the loop, run with
fuel 2 * num_pages, produces a victim rather than running out of fuel. -/
theorem C8_victim_terminates (s : ClockReplacer)
    (hlen : s.rb.length = s.num_pages) (hh : s.clock_hand < s.num_pages)
    (hch : ∀ i, i < s.num_pages → (s.rbGet i).chances ≤ 1)
    (hsz : s.real_size = countIn s.rb) (hpos : 0 < s.real_size) :
    ∃ r, ClockReplacer.Victim (2 * s.num_pages) s = some r := by
  have hcnt : 0 < countIn s.rb := by omega
  have hmu : s.mu < 2 * s.num_pages := mu_lt s hlen hh hcnt
  obtain ⟨v, s2, heq, _⟩ := victimLoop_spec (2 * s.num_pages) s hlen hh hch
    hcnt hmu
  refine ⟨(v, s2), ?_⟩
  rw [ClockReplacer.Victim, if_neg (by omega)]
  exact heq

/-- A concrete replacer used to witness C8: two slots, both in the replacer
with one chance each, so the scan needs a second sweep. -/
def c8Rep : ClockReplacer := ⟨2, 0, [⟨true, 1⟩, ⟨true, 1⟩], 2⟩

theorem C8_victim_terminates_witness :
    (c8Rep.rb.length = c8Rep.num_pages ∧ c8Rep.clock_hand < c8Rep.num_pages ∧
     (∀ i, i < c8Rep.num_pages → (c8Rep.rbGet i).chances ≤ 1) ∧
     c8Rep.real_size = countIn c8Rep.rb ∧ 0 < c8Rep.real_size) ∧
    ∃ r, ClockReplacer.Victim (2 * c8Rep.num_pages) c8Rep = some r :=
  ⟨⟨by decide, by decide, by decide, by decide, by decide⟩,
   C8_victim_terminates c8Rep (by decide) (by decide) (by decide) (by decide)
     (by decide)⟩

/-! ## Claim theorems for the buffer pool manager -/

/-- Claim C9: a FetchPage miss and a NewPage call made when the free list is
empty and the replacer size is 0 both complete and return a null handle,
leaving every component of the pool state untouched, and NewPage does not
reach the disk allocator (the returned state is the input state itself, disk
included). -/
theorem C9_exhausted_no_mutation (fuel : Nat) (s : BufferPoolManager)
    (page_id : Int)
    (habs : alookup s.page_table_ page_id = none)
    (hfl : s.free_list_ = [])
    (hsz : s.replacer_.real_size = 0) :
    BufferPoolManager.FetchPageImpl fuel s page_id = some (none, s) ∧
    BufferPoolManager.NewPageImpl fuel s = (none, s) := by
  constructor
  · unfold BufferPoolManager.FetchPageImpl
    rw [habs]
    dsimp only
    rw [if_neg (by rw [hfl]; simp)]
    rw [ClockReplacer.Victim, if_pos hsz]
  · unfold BufferPoolManager.NewPageImpl
    rw [if_pos ⟨by rw [hfl]; rfl, hsz⟩]

/-- A concrete exhausted pool used to witness C9: one frame, resident and
pinned, empty free list, empty replacer. -/
def c9Pool : BufferPoolManager :=
  { pool_size := 1,
    pages_ := [⟨0, 1, false, 0⟩],
    page_table_ := [(0, 0)],
    free_list_ := [],
    replacer_ := ⟨1, 0, [⟨false, 0⟩], 0⟩,
    disk := ⟨1, [], []⟩ }

theorem C9_exhausted_no_mutation_witness :
    (alookup c9Pool.page_table_ 5 = none ∧ c9Pool.free_list_ = [] ∧
     c9Pool.replacer_.real_size = 0) ∧
    (BufferPoolManager.FetchPageImpl 9 c9Pool 5 = some (none, c9Pool) ∧
     BufferPoolManager.NewPageImpl 9 c9Pool = (none, c9Pool)) :=
  ⟨⟨by decide, by decide, by decide⟩,
   C9_exhausted_no_mutation 9 c9Pool 5 (by decide) (by decide) (by decide)⟩

/-- Claim C10: UnpinPage on a resident page always returns true, decrements
the pin count of the frame by exactly one (an Int, so a pin count of 0 goes
to -1), and always applies Replacer::Unpin to the frame; no error branch
exists for a resident page. -/
theorem C10_unpin_unconditional (s : BufferPoolManager) (page_id : Int)
    (is_dirty : Bool) (frame_id : Nat)
    (hres : alookup s.page_table_ page_id = some frame_id)
    (hf : frame_id < s.pages_.length) :
    (BufferPoolManager.UnpinPageImpl s page_id is_dirty).1 = true ∧
    ((BufferPoolManager.UnpinPageImpl s page_id is_dirty).2.pages_.getD
        frame_id defaultPage).pin_count =
      (s.pages_.getD frame_id defaultPage).pin_count - 1 ∧
    (BufferPoolManager.UnpinPageImpl s page_id is_dirty).2.replacer_ =
      ClockReplacer.Unpin s.replacer_ frame_id := by
  have hred : BufferPoolManager.UnpinPageImpl s page_id is_dirty =
      (true,
        { s with replacer_ := ClockReplacer.Unpin s.replacer_ frame_id,
                 pages_ := s.pages_.set frame_id
                   { s.pages_.getD frame_id defaultPage with
                     pin_count :=
                       (s.pages_.getD frame_id defaultPage).pin_count - 1 } }) := by
    unfold BufferPoolManager.UnpinPageImpl
    rw [hres]
  rw [hred]
  refine ⟨rfl, ?_, rfl⟩
  rw [lgetD_set_self s.pages_ frame_id _ defaultPage hf]

/-- A concrete pool used to witness C10: the resident page already has pin
count 0, so the witnessed unpin drives the pin count to -1. -/
def c10Pool : BufferPoolManager :=
  { pool_size := 1,
    pages_ := [⟨0, 0, false, 0⟩],
    page_table_ := [(0, 0)],
    free_list_ := [],
    replacer_ := ⟨1, 0, [⟨true, 1⟩], 1⟩,
    disk := ⟨1, [], []⟩ }

theorem C10_unpin_unconditional_witness :
    (alookup c10Pool.page_table_ 0 = some 0 ∧ 0 < c10Pool.pages_.length ∧
     (c10Pool.pages_.getD 0 defaultPage).pin_count = 0) ∧
    ((BufferPoolManager.UnpinPageImpl c10Pool 0 true).1 = true ∧
     ((BufferPoolManager.UnpinPageImpl c10Pool 0 true).2.pages_.getD 0
         defaultPage).pin_count =
       (c10Pool.pages_.getD 0 defaultPage).pin_count - 1 ∧
     (BufferPoolManager.UnpinPageImpl c10Pool 0 true).2.replacer_ =
       ClockReplacer.Unpin c10Pool.replacer_ 0) :=
  ⟨⟨by decide, by decide, by decide⟩,
   C10_unpin_unconditional c10Pool 0 true 0 (by decide) (by decide)⟩

/-- Claim C1 fails on the code: on a FetchPage call whose page id is not in
the page table and whose free list is non-empty, the source pops the free
list (lines 53-54) but never assigns target_page, which is initialized to
nullptr at line 46 and assigned only in the page-table-hit branch (line 50)
and the victim branch (line 60); line 70 then dereferences the null pointer.
So the operation does not pop, reset, load and return a handle as the claim
states: it dereferences an invalid handle. The embedded FetchPageImpl
returns the undefined-behavior marker (outer none) on this whole domain. -/
theorem C1_fetch_null_deref (fuel : Nat) (s : BufferPoolManager)
    (page_id : Int)
    (habs : alookup s.page_table_ page_id = none)
    (hne : s.free_list_.length ≠ 0) :
    BufferPoolManager.FetchPageImpl fuel s page_id = none := by
  unfold BufferPoolManager.FetchPageImpl
  rw [habs]
  dsimp only
  rw [if_pos hne]

theorem C1_fetch_null_deref_witness :
    (alookup (newBufferPoolManager 1 emptyDisk).page_table_ 0 = none ∧
     (newBufferPoolManager 1 emptyDisk).free_list_.length ≠ 0) ∧
    BufferPoolManager.FetchPageImpl 9 (newBufferPoolManager 1 emptyDisk) 0 =
      none :=
  ⟨⟨by decide, by decide⟩,
   C1_fetch_null_deref 9 (newBufferPoolManager 1 emptyDisk) 0 (by decide)
     (by decide)⟩

/-- The one-frame pool produced by NewPage() on a fresh pool (the only way to
make a page resident without crossing the null-dereferencing FetchPage
free-list branch): page 0 resident in frame 0 with pin count 0 (NewPage does
not pin, see C4), free list empty, replacer empty, next disk page id 1. -/
def npPool : BufferPoolManager :=
  { pool_size := 1,
    pages_ := [⟨0, 0, false, 0⟩],
    page_table_ := [(0, 0)],
    free_list_ := [],
    replacer_ := ⟨1, 0, [⟨false, 0⟩], 0⟩,
    disk := ⟨1, [], []⟩ }

/-- npPool after one FetchPage(0) hit: pin count 1. -/
def fPool1 : BufferPoolManager :=
  { npPool with pages_ := [⟨0, 1, false, 0⟩] }

/-- npPool after two FetchPage(0) hits: pin count 2. -/
def fPool2 : BufferPoolManager :=
  { npPool with pages_ := [⟨0, 2, false, 0⟩] }

/-- fPool2 after UnpinPage(0, false): pin count 1, yet frame 0 is in the
replacer because UnpinPageImpl calls Replacer::Unpin unconditionally. -/
def u1Pool : BufferPoolManager :=
  { npPool with pages_ := [⟨0, 1, false, 0⟩],
                replacer_ := ⟨1, 0, [⟨true, 1⟩], 1⟩ }

/-- fPool1 after UnpinPage(0, false): pin count 0, frame 0 in the replacer. -/
def u0Pool : BufferPoolManager :=
  { npPool with pages_ := [⟨0, 0, false, 0⟩],
                replacer_ := ⟨1, 0, [⟨true, 1⟩], 1⟩ }

/-- Claim C2 fails on the code: after NewPage(), FetchPage(0) twice (both
page-table hits, the faithful branch) and one UnpinPage(0, false), frame 0
has pin count 1 while sitting in the replacer, because UnpinPageImpl calls
Replacer::Unpin unconditionally; the next FetchPage(1) (victim branch) then
selects the pinned frame 0 as eviction victim. Every step equation of the
trace is stated. -/
theorem C2_pinned_frame_evicted :
    (BufferPoolManager.NewPageImpl 9 (newBufferPoolManager 1 emptyDisk)).2 =
      npPool ∧
    BufferPoolManager.FetchPageImpl 9 npPool 0 = some (some 0, fPool1) ∧
    BufferPoolManager.FetchPageImpl 9 fPool1 0 = some (some 0, fPool2) ∧
    BufferPoolManager.UnpinPageImpl fPool2 0 false = (true, u1Pool) ∧
    (u1Pool.pages_.getD 0 defaultPage).pin_count = 1 ∧
    (u1Pool.replacer_.rbGet 0).is_in = true ∧
    (BufferPoolManager.FetchPageImpl 9 u1Pool 1).map Prod.fst =
      some (some 0) := by
  decide

/-- Claim C3 fails on the code: on npPool (page 0 resident, dirty flag
false), UnpinPage(0, is_dirty=true) returns true but leaves the dirty flag
false, instead of OR-ing the argument into it. The trace reaches the state
through NewPage only, so every executed branch is faithful to the source. -/
theorem C3_unpin_drops_dirty :
    (BufferPoolManager.NewPageImpl 9 (newBufferPoolManager 1 emptyDisk)).2 =
      npPool ∧
    (npPool.pages_.getD 0 defaultPage).is_dirty = false ∧
    (BufferPoolManager.UnpinPageImpl npPool 0 true).1 = true ∧
    ((BufferPoolManager.UnpinPageImpl npPool 0 true).2.pages_.getD 0
        defaultPage).is_dirty = false := by
  decide

/-- Claim C4 fails on the code: a successful NewPage on a fresh one-frame
pool returns page 0 in frame 0, but the frame is left with pin count 0 (the
source neither increments the pin count nor calls Replacer::Pin). -/
theorem C4_new_page_not_pinned :
    (BufferPoolManager.NewPageImpl 9 (newBufferPoolManager 1 emptyDisk)).1 =
      some (0, 0) ∧
    ((BufferPoolManager.NewPageImpl 9
        (newBufferPoolManager 1 emptyDisk)).2.pages_.getD 0
        defaultPage).pin_count = 0 := by
  decide

/-- Claim C5 fails on the code: DeletePageImpl never invokes the disk
manager DeallocatePage, neither on a successful delete of a resident
unpinned page (npPool, reached via NewPage alone) nor on a delete of a
non-resident page on a fresh pool (both return true with an empty
deallocation log). -/
theorem C5_delete_never_deallocates :
    (BufferPoolManager.NewPageImpl 9 (newBufferPoolManager 1 emptyDisk)).2 =
      npPool ∧
    (BufferPoolManager.DeletePageImpl npPool 0).1 = true ∧
    (BufferPoolManager.DeletePageImpl npPool 0).2.disk.deallocLog = [] ∧
    (BufferPoolManager.DeletePageImpl (newBufferPoolManager 1 emptyDisk)
      5).1 = true ∧
    (BufferPoolManager.DeletePageImpl (newBufferPoolManager 1 emptyDisk)
      5).2.disk.deallocLog = [] := by
  decide

/-- Claim C6 fails on the code: after NewPage(), a FetchPage(0) hit and
UnpinPage(0, false) (all faithful branches), page 0 is resident with pin
count 0 and its frame is in the replacer; a successful DeletePage(0) then
pushes frame 0 onto the free list without calling Replacer::Pin, leaving it
simultaneously in the free list and in the replacer. -/
theorem C6_deleted_frame_still_in_replacer :
    (BufferPoolManager.NewPageImpl 9 (newBufferPoolManager 1 emptyDisk)).2 =
      npPool ∧
    BufferPoolManager.FetchPageImpl 9 npPool 0 = some (some 0, fPool1) ∧
    BufferPoolManager.UnpinPageImpl fPool1 0 false = (true, u0Pool) ∧
    (BufferPoolManager.DeletePageImpl u0Pool 0).1 = true ∧
    (BufferPoolManager.DeletePageImpl u0Pool 0).2.free_list_ = [0] ∧
    ((BufferPoolManager.DeletePageImpl u0Pool 0).2.replacer_.rbGet 0).is_in =
      true := by
  decide
